import Mathlib

/-!
Shallow embedding of the terminal code-assistant agent (src/agent.py and
src/tool/github_direct.py) and proofs of the specification claims about it.

Conventions of the embedding:
* langchain messages (SystemMessage / HumanMessage / AIMessage / ToolMessage)
  become the inductive `Msg`; an AIMessage carries its `tool_calls` list.
* Python strings are Lean `String`s; `str.lower`, `str.strip`, `str.isdigit`
  and the `in` substring test are modelled on their ASCII behaviour, which is
  the only behaviour exercised by the agent's own string constants.
* Python dicts keyed by the strings "1", "2", ... are modelled as association
  lists in insertion order (all keys produced by the source are distinct).
* A tool invocation that raises is modelled as `Except.error` carrying the
  exception text `str(e)`; a normal return is `Except.ok` carrying the
  result text `str(result)`.
* The LLM backend (`self.llm_with_tools.invoke`) is a parameter of type
  `Backend`; a raised backend exception is `Except.error`.
* The LangGraph runtime that executes the compiled two-node graph is
  modelled by `runFrom`: one unit of fuel per executed node, and exhausting
  the fuel models LangGraph's `GraphRecursionError` (the runtime's
  configured recursion limit, 25 by default for the compiled graph of
  `initialize`), surfaced as `RunError.recursionLimit`.
-/

namespace TerminalAssistant

/-! ## Data model: messages and tool calls -/

/-- One structured tool invocation request attached to an AIMessage:
name, argument mapping (kept opaque as its textual form) and the
caller-generated correlation id. -/
structure ToolCall where
  name : String
  args : String
  id : String
deriving DecidableEq

/-- The langchain message variants used by the agent. -/
inductive Msg where
  | system (content : String)
  | human (content : String)
  | ai (content : String) (tool_calls : List ToolCall)
  | tool (content : String) (tool_call_id : String)
deriving DecidableEq

/-- `message.content` (every langchain message has a `content` attribute). -/
def msgContent : Msg → String
  | .system c => c
  | .human c => c
  | .ai c _ => c
  | .tool c _ => c

/-- `hasattr(message, "tool_calls")`: only AIMessage carries the attribute. -/
def hasToolCallsAttr : Msg → Bool
  | .ai _ _ => true
  | _ => false

/-- `message.tool_calls` for an AIMessage, `[]` for the variants that have
no such attribute (never read on them by the source). -/
def getToolCalls : Msg → List ToolCall
  | .ai _ tcs => tcs
  | _ => []

/-- The correlation id of a ToolMessage, `none` for other variants. -/
def toolIdOf : Msg → Option String
  | .tool _ i => some i
  | _ => none

/-- `isinstance(message, SystemMessage)`. -/
def isSystemMsg : Msg → Bool
  | .system _ => true
  | _ => false

/-! ## Python string helpers -/

/-- `pat in s` for Python strings, on the character list. -/
def listContainsSub (pat : List Char) : List Char → Bool
  | [] => pat.isEmpty
  | c :: cs => pat.isPrefixOf (c :: cs) || listContainsSub pat cs

/-- Python's substring test `pat in s`. -/
def containsSub (s pat : String) : Bool :=
  listContainsSub pat.toList s.toList

/-- Python regex `\s` on the ASCII range (space, tab, newline, carriage
return, vertical tab, form feed); also the ASCII whitespace stripped by
`str.strip`. -/
def pyWhitespace (c : Char) : Bool :=
  c == ' ' || c == '\t' || c == '\n' || c == '\r' || c == '\x0b' || c == '\x0c'

/-- Python `str.lower` (ASCII case mapping, the range the agent uses). -/
def pyLower (s : String) : String :=
  String.mk (s.data.map Char.toLower)

/-- Python `str.strip` with no argument: drop leading and trailing
whitespace. -/
def pyStrip (s : String) : String :=
  String.mk (((s.data.dropWhile pyWhitespace).reverse.dropWhile pyWhitespace).reverse)

/-- Python `str.isdigit` restricted to the ASCII decimal digits, the only
digit forms the agent ever stores as option keys (`str(option_num)`). -/
def pyIsdigit (s : String) : Bool :=
  !s.data.isEmpty && s.data.all (fun c => c.isDigit)

/-- Python `str.split(sep)` for a one-character separator, on character
lists: every occurrence separates, empty pieces are kept. -/
def splitOnChar (sep : Char) : List Char → List (List Char)
  | [] => [[]]
  | x :: xs =>
    if x == sep then [] :: splitOnChar sep xs
    else
      match splitOnChar sep xs with
      | [] => [[x]]
      | l :: ls => (x :: l) :: ls

/-- Python `text.split('\n')`. -/
def pySplitLines (s : String) : List String :=
  (splitOnChar '\n' s.data).map String.mk

/-! ## Option Indexer: `_format_with_numbers` (src/agent.py lines 155-206) -/

/-- The bullet glyph class `[•\-\*]` of the regex in line 186. -/
def isBulletGlyph (c : Char) : Bool :=
  c == '•' || c == '-' || c == '*'

/-- `re.match(r'^(\s*)[•\-\*]\s+(.+)$', line)` on the character list of one
line (a line produced by `split('\n')` contains no newline).  Returns
`(group 1, group 2)`: the leading whitespace and the bullet content.  The
`\s+` run is matched greedily; when everything after the glyph is
whitespace the regex engine backtracks one character so that `(.+)`
captures exactly the final whitespace character. -/
def bulletMatchL (cs : List Char) : Option (List Char × List Char) :=
  let indent := cs.takeWhile pyWhitespace
  match cs.dropWhile pyWhitespace with
  | [] => none
  | g :: rest =>
    if isBulletGlyph g then
      let after := rest.dropWhile pyWhitespace
      if (rest.takeWhile pyWhitespace).isEmpty then none
      else if after.isEmpty then
        if 2 ≤ rest.length then some (indent, rest.drop (rest.length - 1)) else none
      else some (indent, after)
    else none

/-- The bullet-pattern match of line 186, on strings. -/
def bulletMatch (line : String) : Option (String × String) :=
  (bulletMatchL line.toList).map (fun p => (String.mk p.1, String.mk p.2))

/-- The `for line in lines` loop of lines 184-198: rewrites matching lines,
numbering from `n`, and accumulates the `{str(n): content}` option pairs in
match order. -/
def formatLines : List String → Nat → (List String × List (String × String))
  | [], _ => ([], [])
  | line :: rest, n =>
    match bulletMatch line with
    | some (indent, content) =>
      let r := formatLines rest (n + 1)
      ((indent ++ "**" ++ toString n ++ ".** " ++ content) :: r.1,
       (toString n, content) :: r.2)
    | none =>
      let r := formatLines rest n
      (line :: r.1, r.2)

/-- `_format_with_numbers` on a string argument: the returned display text
and the new value of `self.last_options`.  The first argument is the prior
value of `self.last_options`; line 177 (`self.last_options = {}`) discards
it before the scan, so it never influences the result. -/
def format_with_numbers (last_options : List (String × String)) (text : String) :
    String × List (String × String) :=
  let lines := pySplitLines text
  let r := formatLines lines 1
  let result := String.intercalate "\n" r.1
  let result :=
    if r.2.isEmpty then result
    else result ++ "\n\n*Tip: Type a number (1-" ++ toString r.2.length ++
      ") to select an option*"
  (result, r.2)

/-! ## Numeric option resolution (src/agent.py lines 364-368) -/

/-- Lookup of `user_input.strip()` in the `self.last_options` dict. -/
def lookupOpt (last_options : List (String × String)) (k : String) : Option String :=
  (last_options.find? (fun p => p.1 == k)).map Prod.snd

/-- Lines 364-368 of `run`: if the stripped input is all digits and a key of
`self.last_options`, replace the input by the mapped option text, else pass
it through unchanged. -/
def resolveOption (last_options : List (String × String)) (user_input : String) : String :=
  let t := pyStrip user_input
  if pyIsdigit t then
    match lookupOpt last_options t with
    | some v => v
    | none => user_input
  else user_input

/-! ## The quick-start option map (src/agent.py lines 416-425) -/

/-- The five fixed options `_display_quick_start` installs in
`self.last_options` at the end of `initialize`, before any model turn. -/
def quickStartOptions : List (String × String) :=
  [("1", "List all files in current directory"),
   ("2", "Show available tools"),
   ("3", "Run the tests"),
   ("4", "Read the README.md file"),
   ("5", "Search for code in the project")]

/-! ## Model node: `model_response` (src/agent.py lines 208-245) -/

/-- The system prompt literal of line 213. -/
def sysPrompt : String :=
  "You MUST call tools. NEVER just talk. For \x27push folder\x27: call push_folder(owner, repo, folder_path, branch, message). For \x27push file\x27: call quick_push_file(owner, repo, file_path, branch, message). DO NOT ask questions, CALL THE TOOL NOW."

/-- The `SystemMessage` built on every entry to `model_response`. -/
def systemMessage : Msg := .system sysPrompt

/-- Lines 215-222: make the first message of the list handed to the LLM the
current system instruction.  `len(messages) == 1` prepends; otherwise a
leading SystemMessage is replaced in place and any other first message gets
the system message prepended.  (The empty list never reaches this code;
the total model prepends there as well.) -/
def buildModelInput (messages : List Msg) : List Msg :=
  if messages.length == 1 then systemMessage :: messages
  else
    match messages with
    | .system _ :: rest => systemMessage :: rest
    | _ => systemMessage :: messages

/-- The action-intent vocabulary of line 228. -/
def actionWords : List String := ["push", "upload", "github", "repo"]

/-- The directive appended to the trailing message by line 230. -/
def steerSuffix : String :=
  "\n\n[SYSTEM: You MUST call the appropriate tool NOW. Do not respond with text.]"

/-- Lines 227-230: if the last message's lowercased content contains one of
the action words, replace the last message by a HumanMessage carrying the
content plus an imperative directive. -/
def steerMessages (messages : List Msg) : List Msg :=
  match messages.getLast? with
  | none => messages
  | some last =>
    let last_msg := msgContent last
    if actionWords.any (fun w => containsSub (pyLower last_msg) w) then
      messages.dropLast ++ [.human (last_msg ++ steerSuffix)]
    else messages

/-- The LLM backend capability (`self.llm_with_tools.invoke`): from the
message list to an assistant reply (content plus tool calls), or a raised
backend exception carried as `Except.error`. -/
structure AIResp where
  content : String
  tool_calls : List ToolCall
deriving DecidableEq

/-- Type of the model backend collaborator. -/
abbrev Backend := List Msg → Except String AIResp

/-- The `model_response` node: build the LLM input, invoke the backend, and
on a non-empty content run `_format_with_numbers` (updating
`self.last_options`).  The node's state update is the single appended
AIMessage; a backend exception propagates. -/
def model_response (backend : Backend) (last_options : List (String × String))
    (messages : List Msg) :
    Except String (Msg × List (String × String)) :=
  let input := steerMessages (buildModelInput messages)
  match backend input with
  | .error e => .error e
  | .ok resp =>
    let last_options' :=
      if resp.content == "" then last_options
      else (format_with_numbers last_options resp.content).2
    .ok (.ai resp.content resp.tool_calls, last_options')

/-! ## Tool node: `tool_use` (src/agent.py lines 247-318) -/

/-- A registered tool handle: name, whether it came from the MCP source
(`tool in self.mcp_tools`), and its synchronous (`invoke`) and asynchronous
(`ainvoke`) behaviours, each returning result text or a raised exception. -/
structure ToolDef where
  name : String
  isMcp : Bool
  invoke : String → Except String String
  ainvoke : String → Except String String

/-- Lines 276-280: MCP tools are awaited through `ainvoke`, all others are
called synchronously through `invoke`; either way the result is available
before the next request is processed. -/
def dispatch (t : ToolDef) (args : String) : Except String String :=
  if t.isMcp then t.ainvoke args else t.invoke args

/-- Lines 266-316: processing of one tool call.  Unknown tool names and
raised exceptions each become an error-text ToolMessage carrying the
original correlation id; a normal result becomes a ToolMessage with the
result text. -/
def runToolCall (tools : List ToolDef) (tc : ToolCall) : Msg :=
  match tools.find? (fun t => t.name == tc.name) with
  | some t =>
    match dispatch t tc.args with
    | .ok result => .tool result tc.id
    | .error e => .tool ("Tool error: " ++ e) tc.id
  | none => .tool ("Tool " ++ tc.name ++ " not found") tc.id

/-- The `for tool_call in tool_calls` loop of lines 258-316: one ToolMessage
per request, in request order.  The node's state update appends them all. -/
def tool_use (tools : List ToolDef) (tool_calls : List ToolCall) : List Msg :=
  tool_calls.map (runToolCall tools)

/-! ## Graph wiring (src/agent.py lines 97-115 and 320-327) -/

/-- The two graph nodes registered by `_setup_workflow`. -/
inductive Node where
  | model_response
  | tool_use
deriving DecidableEq

/-- The outcomes of the conditional edge of lines 108-115. -/
inductive Route where
  | tool_use
  | END
deriving DecidableEq

/-- `check_tool_use` (lines 320-327): route to the tool node exactly when
the last message has a non-empty `tool_calls` attribute. -/
def check_tool_use (messages : List Msg) : Route :=
  match messages.getLast? with
  | some last =>
    if hasToolCallsAttr last && !(getToolCalls last).isEmpty then .tool_use
    else .END
  | none => .END

/-- The edge structure installed by `_setup_workflow`: after
`model_response` the conditional edge `check_tool_use` selects `tool_use`
or END (`none`); `tool_use` has the unconditional edge back to
`model_response` added by line 105. -/
def nextNode : Node → List Msg → Option Node
  | .model_response, messages =>
    match check_tool_use messages with
    | .tool_use => some .tool_use
    | .END => none
  | .tool_use, _ => some .model_response

/-- The tool calls of the last message, read by line 255. -/
def lastToolCalls (messages : List Msg) : List ToolCall :=
  match messages.getLast? with
  | some m => getToolCalls m
  | none => []

/-- Per-run failures of a graph run as seen by the session loop: a raised
backend exception, or LangGraph's `GraphRecursionError` when the compiled
graph's recursion limit is exhausted. -/
inductive RunError where
  | backendError (msg : String)
  | recursionLimit
deriving DecidableEq

/-- Execution of the compiled graph from a given node: the LangGraph loop
that alternates the two nodes along `nextNode`'s edges, spending one unit
of the recursion limit per executed node and raising `GraphRecursionError`
when it is exhausted.  State updates follow `add_messages` (append). -/
def runFrom (backend : Backend) (tools : List ToolDef) :
    Nat → Node → List Msg → List (String × String) →
    Except RunError (List Msg × List (String × String))
  | 0, _, _, _ => .error .recursionLimit
  | n + 1, .model_response, messages, opts =>
    match model_response backend opts messages with
    | .error e => .error (.backendError e)
    | .ok (resp, opts') =>
      let messages' := messages ++ [resp]
      match check_tool_use messages' with
      | .END => .ok (messages', opts')
      | .tool_use => runFrom backend tools n .tool_use messages' opts'
  | n + 1, .tool_use, messages, opts =>
    runFrom backend tools n .model_response
      (messages ++ tool_use tools (lastToolCalls messages)) opts

/-! ## Session loop: one iteration of `run` (src/agent.py lines 329-414) -/

/-- State owned by the agent object across loop iterations: the
checkpointed conversation of the session thread and `self.last_options`. -/
structure SessionSt where
  conversation : List Msg
  last_options : List (String × String)
deriving DecidableEq

/-- What `Prompt.ask` produced: a line, or EOF / a keyboard interrupt. -/
inductive PromptResult where
  | interrupted
  | line (s : String)
deriving DecidableEq

/-- Whether the loop iteration breaks out of the loop or continues to the
next prompt, possibly after reporting a caught error (lines 410-414). -/
inductive LoopOutcome where
  | exitLoop
  | continueLoop (reported : Option RunError)
deriving DecidableEq

/-- The externally visible action an iteration took on the utterance. -/
inductive TurnAction where
  | noAction
  | directPush (owner repo folder_path branch message : String)
  | graphRun (humanContent : String)
deriving DecidableEq

/-- The exit commands of line 351. -/
def exitCommands : List String := ["exit", "quit", "q"]

/-- One iteration of the `while True` body of `run`, given the prompt
result: empty input and the exit / help / tools commands short-circuit;
numeric options are resolved; a resolved input containing both "push" and
"folder" triggers the direct `push_folder` call of lines 370-396 with the
hard-coded owner and repo, the conversation untouched; anything else
appends a HumanMessage and drives one graph run, whose uncaught exception
is caught by the `except Exception` arm and reported, the loop
continuing. -/
def sessionStep (backend : Backend) (tools : List ToolDef) (recursionLimit : Nat)
    (cwd : String) (st : SessionSt) (pr : PromptResult) :
    LoopOutcome × SessionSt × TurnAction :=
  match pr with
  | .interrupted => (.exitLoop, st, .noAction)
  | .line user_input =>
    if user_input.data.isEmpty || (pyStrip user_input).data.isEmpty then
      (.continueLoop none, st, .noAction)
    else if exitCommands.contains (pyLower user_input) then (.exitLoop, st, .noAction)
    else if pyLower user_input == "help" then (.continueLoop none, st, .noAction)
    else if pyLower user_input == "tools" then (.continueLoop none, st, .noAction)
    else
      let user_input := resolveOption st.last_options user_input
      if containsSub (pyLower user_input) "push" && containsSub (pyLower user_input) "folder" then
        let folder_name :=
          if containsSub (pyLower user_input) "codeassistent" then "codeAssistent" else "."
        let folder_path := if folder_name != "." then cwd ++ "/" ++ folder_name else cwd
        (.continueLoop none, st,
         .directPush "Abhitheshek" "terminalcodeAssistant" folder_path "main"
           "Upload codeAssistent folder")
      else
        match runFrom backend tools recursionLimit .model_response
            (st.conversation ++ [Msg.human user_input]) st.last_options with
        | .ok (messages', opts') => (.continueLoop none, ⟨messages', opts'⟩, .graphRun user_input)
        | .error e => (.continueLoop (some e), st, .graphRun user_input)

/-! ## Derived notions used to state the claims -/

/-- The contents of the bullet lines of a line list, in document order. -/
def bulletContents (lines : List String) : List String :=
  lines.filterMap (fun l => (bulletMatch l).map Prod.snd)

/-- The option pairs `{str(n): content}` the spec prescribes for a list of
matched contents, numbering from `n`. -/
def numberFrom (n : Nat) : List String → List (String × String)
  | [] => []
  | c :: cs => (toString n, c) :: numberFrom (n + 1) cs

/-- Correlation ids of all tool invocation requests issued by Assistant
messages of a conversation, in issue order. -/
def issuedIds (messages : List Msg) : List String :=
  messages.flatMap (fun m => (getToolCalls m).map ToolCall.id)

/-- Correlation ids answered by ToolResult messages of a conversation. -/
def resultIds (messages : List Msg) : List String :=
  messages.filterMap toolIdOf

/-- Every issued request id has a matching ToolResult id. -/
def answeredB (messages : List Msg) : Bool :=
  (issuedIds messages).all (fun i => (resultIds messages).contains i)

/-- Proposition form of `answeredB`. -/
def AnsweredP (messages : List Msg) : Prop :=
  ∀ i ∈ issuedIds messages, i ∈ resultIds messages

/-- The conversation contains no System message. -/
def noSystemB (messages : List Msg) : Bool :=
  messages.all (fun m => !isSystemMsg m)

/-- Number of System messages in a conversation. -/
def countSystem (messages : List Msg) : Nat :=
  messages.countP (fun m => isSystemMsg m)

/-! ## Concrete collaborators used by the witnesses -/

/-- A backend that requests one `echo` tool call on the first model turn
and finishes with plain content on the next. -/
def wBackend : Backend := fun messages =>
  if messages.length ≤ 2 then .ok ⟨"", [⟨"echo", "x", "call1"⟩]⟩
  else .ok ⟨"done", []⟩

/-- A registry holding one synchronous `echo` tool. -/
def wTools : List ToolDef :=
  [⟨"echo", false, fun args => .ok ("echo:" ++ args), fun args => .ok args⟩]

/-- A backend that issues a tool call on every turn, never finishing. -/
def loopBackend : Backend := fun _ => .ok ⟨"", [⟨"t", "a", "1"⟩]⟩

/-- A backend that raises on every call, like a rate-limited model API. -/
def failBackend : Backend := fun _ => .error "rate limited"

/-- A backend that immediately answers with empty content. -/
def quietBackend : Backend := fun _ => .ok ⟨"", []⟩

/-! ## Helper lemmas about the graph -/

theorem check_tool_use_concat (messages : List Msg) (c : String) (tcs : List ToolCall) :
    check_tool_use (messages ++ [Msg.ai c tcs]) =
      if tcs.isEmpty then Route.END else Route.tool_use := by
  simp only [check_tool_use, List.getLast?_concat, hasToolCallsAttr, getToolCalls,
    Bool.true_and]
  cases h : tcs.isEmpty <;> simp [h]

theorem lastToolCalls_concat (messages : List Msg) (c : String) (tcs : List ToolCall) :
    lastToolCalls (messages ++ [Msg.ai c tcs]) = tcs := by
  simp [lastToolCalls, List.getLast?_concat, getToolCalls]

theorem model_response_shape (backend : Backend) (opts : List (String × String))
    (messages : List Msg) (resp : Msg) (opts' : List (String × String))
    (h : model_response backend opts messages = .ok (resp, opts')) :
    ∃ c tcs, resp = Msg.ai c tcs := by
  have h' : (match backend (steerMessages (buildModelInput messages)) with
      | Except.error e => (Except.error e : Except String (Msg × List (String × String)))
      | Except.ok r =>
        Except.ok (Msg.ai r.content r.tool_calls,
          if r.content == "" then opts else (format_with_numbers opts r.content).2)) =
      Except.ok (resp, opts') := h
  cases hb : backend (steerMessages (buildModelInput messages)) with
  | error e => rw [hb] at h'; cases h'
  | ok r =>
    rw [hb] at h'
    simp only [Except.ok.injEq, Prod.mk.injEq] at h'
    exact ⟨r.content, r.tool_calls, h'.1.symm⟩

theorem toolIdOf_runToolCall (tools : List ToolDef) (tc : ToolCall) :
    toolIdOf (runToolCall tools tc) = some tc.id := by
  unfold runToolCall
  cases tools.find? (fun t => t.name == tc.name) with
  | none => rfl
  | some t =>
    show toolIdOf
      (match dispatch t tc.args with
       | .ok result => Msg.tool result tc.id
       | .error e => Msg.tool ("Tool error: " ++ e) tc.id) = some tc.id
    cases dispatch t tc.args <;> rfl

theorem getToolCalls_runToolCall (tools : List ToolDef) (tc : ToolCall) :
    getToolCalls (runToolCall tools tc) = [] := by
  unfold runToolCall
  cases tools.find? (fun t => t.name == tc.name) with
  | none => rfl
  | some t =>
    show getToolCalls
      (match dispatch t tc.args with
       | .ok result => Msg.tool result tc.id
       | .error e => Msg.tool ("Tool error: " ++ e) tc.id) = []
    cases dispatch t tc.args <;> rfl

theorem isSystemMsg_runToolCall (tools : List ToolDef) (tc : ToolCall) :
    isSystemMsg (runToolCall tools tc) = false := by
  unfold runToolCall
  cases tools.find? (fun t => t.name == tc.name) with
  | none => rfl
  | some t =>
    show isSystemMsg
      (match dispatch t tc.args with
       | .ok result => Msg.tool result tc.id
       | .error e => Msg.tool ("Tool error: " ++ e) tc.id) = false
    cases dispatch t tc.args <;> rfl

theorem resultIds_tool_use (tools : List ToolDef) (tcs : List ToolCall) :
    resultIds (tool_use tools tcs) = tcs.map ToolCall.id := by
  induction tcs with
  | nil => rfl
  | cons tc rest ih =>
    simp only [tool_use, List.map_cons] at ih ⊢
    simp only [resultIds, List.filterMap_cons, toolIdOf_runToolCall] at ih ⊢
    rw [ih]

theorem issuedIds_tool_use (tools : List ToolDef) (tcs : List ToolCall) :
    issuedIds (tool_use tools tcs) = [] := by
  induction tcs with
  | nil => rfl
  | cons tc rest ih =>
    simp only [tool_use, List.map_cons] at ih ⊢
    simp only [issuedIds, List.flatMap_cons, getToolCalls_runToolCall, List.map_nil,
      List.nil_append] at ih ⊢
    exact ih

theorem issuedIds_append (a b : List Msg) :
    issuedIds (a ++ b) = issuedIds a ++ issuedIds b := by
  simp [issuedIds]

theorem resultIds_append (a b : List Msg) :
    resultIds (a ++ b) = resultIds a ++ resultIds b := by
  simp [resultIds]

theorem issuedIds_ai (c : String) (tcs : List ToolCall) :
    issuedIds [Msg.ai c tcs] = tcs.map ToolCall.id := by
  simp [issuedIds, getToolCalls]

theorem resultIds_ai (c : String) (tcs : List ToolCall) :
    resultIds [Msg.ai c tcs] = [] := by
  simp [resultIds, toolIdOf]

theorem answeredB_eq_true_iff (messages : List Msg) :
    answeredB messages = true ↔ AnsweredP messages := by
  simp [answeredB, AnsweredP, List.all_eq_true, List.contains, List.elem_iff]

theorem noSystemB_append (a b : List Msg) :
    noSystemB (a ++ b) = (noSystemB a && noSystemB b) := by
  simp [noSystemB]

theorem noSystemB_tool_use (tools : List ToolDef) (tcs : List ToolCall) :
    noSystemB (tool_use tools tcs) = true := by
  simp only [noSystemB, List.all_eq_true, tool_use]
  intro m hm
  obtain ⟨tc, _, rfl⟩ := List.mem_map.mp hm
  simp [isSystemMsg_runToolCall]

theorem countSystem_eq_zero (messages : List Msg) (h : noSystemB messages = true) :
    countSystem messages = 0 := by
  simp only [noSystemB, List.all_eq_true, Bool.not_eq_true'] at h
  simp only [countSystem, List.countP_eq_zero]
  intro m hm
  simp [h m hm]

/-- The graph run preserves the absence of System messages in the
checkpointed conversation: the nodes append only Assistant and ToolResult
messages. -/
theorem runFrom_noSystem (backend : Backend) (tools : List ToolDef) :
    ∀ (n : Nat) (node : Node) (messages : List Msg) (opts : List (String × String))
      (final : List Msg) (fopts : List (String × String)),
      noSystemB messages = true →
      runFrom backend tools n node messages opts = Except.ok (final, fopts) →
      noSystemB final = true := by
  intro n
  induction n with
  | zero =>
    intro node messages opts final fopts _ h
    simp [runFrom] at h
  | succ n ih =>
    intro node messages opts final fopts hns hrun
    cases node with
    | model_response =>
      rw [runFrom] at hrun
      cases hmr : model_response backend opts messages with
      | error e => rw [hmr] at hrun; cases hrun
      | ok ro =>
        rw [hmr] at hrun
        obtain ⟨resp, opts'⟩ := ro
        obtain ⟨c, tcs, rfl⟩ := model_response_shape backend opts messages resp opts' hmr
        replace hrun :
            (match check_tool_use (messages ++ [Msg.ai c tcs]) with
             | Route.END => Except.ok (messages ++ [Msg.ai c tcs], opts')
             | Route.tool_use =>
               runFrom backend tools n Node.tool_use (messages ++ [Msg.ai c tcs]) opts') =
              Except.ok (final, fopts) := hrun
        have hns' : noSystemB (messages ++ [Msg.ai c tcs]) = true := by
          rw [noSystemB_append, hns]
          simp [noSystemB, isSystemMsg]
        rw [check_tool_use_concat] at hrun
        cases htcs : tcs.isEmpty with
        | true =>
          rw [htcs] at hrun
          simp only [if_true] at hrun
          obtain ⟨h1, _⟩ : messages ++ [Msg.ai c tcs] = final ∧ opts' = fopts := by
            simpa using hrun
          rw [← h1]
          exact hns'
        | false =>
          rw [htcs] at hrun
          simp only [Bool.false_eq_true, if_false] at hrun
          exact ih .tool_use _ _ _ _ hns' hrun
    | tool_use =>
      rw [runFrom] at hrun
      apply ih .model_response _ _ _ _ ?_ hrun
      rw [noSystemB_append, hns, noSystemB_tool_use]
      rfl

/-- A completed graph run leaves no issued request unanswered, given it
starts from a conversation with that property. -/
theorem runFrom_answered (backend : Backend) (tools : List ToolDef) :
    ∀ (n : Nat) (node : Node) (messages : List Msg) (opts : List (String × String))
      (final : List Msg) (fopts : List (String × String)),
      (node = Node.model_response → AnsweredP messages) →
      (node = Node.tool_use → ∃ pre c tcs, messages = pre ++ [Msg.ai c tcs] ∧ AnsweredP pre) →
      runFrom backend tools n node messages opts = Except.ok (final, fopts) →
      AnsweredP final := by
  intro n
  induction n with
  | zero =>
    intro node messages opts final fopts _ _ h
    simp [runFrom] at h
  | succ n ih =>
    intro node messages opts final fopts hm ht hrun
    cases node with
    | model_response =>
      have hA := hm rfl
      rw [runFrom] at hrun
      cases hmr : model_response backend opts messages with
      | error e => rw [hmr] at hrun; cases hrun
      | ok ro =>
        rw [hmr] at hrun
        obtain ⟨resp, opts'⟩ := ro
        obtain ⟨c, tcs, rfl⟩ := model_response_shape backend opts messages resp opts' hmr
        replace hrun :
            (match check_tool_use (messages ++ [Msg.ai c tcs]) with
             | Route.END => Except.ok (messages ++ [Msg.ai c tcs], opts')
             | Route.tool_use =>
               runFrom backend tools n Node.tool_use (messages ++ [Msg.ai c tcs]) opts') =
              Except.ok (final, fopts) := hrun
        rw [check_tool_use_concat] at hrun
        cases htcs : tcs.isEmpty with
        | true =>
          rw [htcs] at hrun
          simp only [if_true] at hrun
          obtain ⟨h1, _⟩ : messages ++ [Msg.ai c tcs] = final ∧ opts' = fopts := by
            simpa using hrun
          rw [← h1]
          have htcs' : tcs = [] := by
            cases tcs with
            | nil => rfl
            | cons a b => simp at htcs
          subst htcs'
          intro i hi
          rw [issuedIds_append, issuedIds_ai] at hi
          rw [resultIds_append]
          simp only [List.map_nil, List.append_nil] at hi
          exact List.mem_append_left _ (hA i hi)
        | false =>
          rw [htcs] at hrun
          simp only [Bool.false_eq_true, if_false] at hrun
          exact ih .tool_use _ _ _ _ (fun hh => nomatch hh)
            (fun _ => ⟨messages, c, tcs, rfl, hA⟩) hrun
    | tool_use =>
      obtain ⟨pre, c, tcs, rfl, hpre⟩ := ht rfl
      rw [runFrom] at hrun
      rw [lastToolCalls_concat] at hrun
      apply ih .model_response _ _ _ _ ?_ (fun hh => nomatch hh) hrun
      intro _ i hi
      rw [issuedIds_append, issuedIds_append, issuedIds_ai, issuedIds_tool_use,
        List.append_nil] at hi
      rw [resultIds_append, resultIds_append, resultIds_ai, resultIds_tool_use,
        List.append_nil]
      rcases List.mem_append.mp hi with h1 | h1
      · exact List.mem_append_left _ (hpre i h1)
      · exact List.mem_append_right _ h1

/-! ## Claim theorems -/

/-- C1: after every execution of the `model_response` node — whose state
update appends the produced Assistant message, so the conversation ends
with it — the conditional edge routes to `tool_use` exactly when that
Assistant message carries a non-empty `tool_calls` list and to END
otherwise, and the `tool_use` node always routes unconditionally back to
`model_response`. -/
theorem C1_conditional_routing :
    (∀ (messages : List Msg) (c : String) (tcs : List ToolCall),
      nextNode Node.model_response (messages ++ [Msg.ai c tcs]) =
        if tcs.isEmpty then none else some Node.tool_use) ∧
    (∀ messages : List Msg, nextNode Node.tool_use messages = some Node.model_response) := by
  constructor
  · intro messages c tcs
    simp only [nextNode, check_tool_use, List.getLast?_concat, hasToolCallsAttr,
      getToolCalls, Bool.true_and]
    cases h : tcs.isEmpty <;> simp [h]
  · intro messages
    rfl

/-- C3: an unknown tool name yields an error ToolResult naming the tool
with the request's correlation id; a raised tool exception is caught and
becomes an error-text ToolResult with the same id; and the whole batch is
still processed (one result per request), so no exception propagates out of
the tool node. -/
theorem C3_tool_errors_contained :
    (∀ (tools : List ToolDef) (tc : ToolCall),
      tools.find? (fun t => t.name == tc.name) = none →
      runToolCall tools tc = Msg.tool ("Tool " ++ tc.name ++ " not found") tc.id) ∧
    (∀ (tools : List ToolDef) (tc : ToolCall) (td : ToolDef) (e : String),
      tools.find? (fun t => t.name == tc.name) = some td →
      dispatch td tc.args = Except.error e →
      runToolCall tools tc = Msg.tool ("Tool error: " ++ e) tc.id) ∧
    (∀ (tools : List ToolDef) (tcs : List ToolCall),
      (tool_use tools tcs).length = tcs.length) := by
  refine ⟨?_, ?_, ?_⟩
  · intro tools tc h
    simp [runToolCall, h]
  · intro tools tc td e h hd
    simp [runToolCall, h, hd]
  · intro tools tcs
    simp [tool_use]

/-- C3 witness: with an empty registry an unknown-tool request becomes the
not-found ToolResult, and a registered tool that raises becomes an
error-text ToolResult, both carrying their correlation ids. -/
theorem C3_witness :
    runToolCall [] ⟨"ghost", "a", "id1"⟩ = Msg.tool "Tool ghost not found" "id1" ∧
    runToolCall [⟨"boom", false, fun _ => Except.error "exploded", fun _ => Except.ok ""⟩]
        ⟨"boom", "a", "id2"⟩ = Msg.tool "Tool error: exploded" "id2" :=
  ⟨C3_tool_errors_contained.1 [] ⟨"ghost", "a", "id1"⟩ rfl,
   C3_tool_errors_contained.2.1
     [⟨"boom", false, fun _ => Except.error "exploded", fun _ => Except.ok ""⟩]
     ⟨"boom", "a", "id2"⟩
     ⟨"boom", false, fun _ => Except.error "exploded", fun _ => Except.ok ""⟩
     "exploded" rfl rfl⟩

/-- C5: a user input token is replaced by a mapped option exactly when its
stripped form is all decimal digits and is a key of the current option map;
with a non-digit token, or a digit token absent from the map, the input
passes through unchanged as free text. -/
theorem C5_numeric_option_resolution :
    (∀ (m : List (String × String)) (s v : String),
      pyIsdigit (pyStrip s) = true → lookupOpt m (pyStrip s) = some v →
      resolveOption m s = v) ∧
    (∀ (m : List (String × String)) (s : String),
      pyIsdigit (pyStrip s) = false → resolveOption m s = s) ∧
    (∀ (m : List (String × String)) (s : String),
      lookupOpt m (pyStrip s) = none → resolveOption m s = s) := by
  refine ⟨?_, ?_, ?_⟩
  · intro m s v h hl
    simp [resolveOption, h, hl]
  · intro m s h
    simp [resolveOption, h]
  · intro m s h
    by_cases hd : pyIsdigit (pyStrip s) <;> simp [resolveOption, hd, h]

/-- C5 witness: the stripped digit token " 2 " resolves through the map,
while "2x" (not all digits) and "3" (absent key) pass through unchanged. -/
theorem C5_witness :
    resolveOption [("2", "beta")] " 2 " = "beta" ∧
    resolveOption [("2", "beta")] "2x" = "2x" ∧
    resolveOption [("2", "beta")] "3" = "3" :=
  ⟨C5_numeric_option_resolution.1 [("2", "beta")] " 2 " "beta" rfl rfl,
   C5_numeric_option_resolution.2.1 [("2", "beta")] "2x" rfl,
   C5_numeric_option_resolution.2.2 [("2", "beta")] "3" rfl⟩

/-- C10: at startup `_display_quick_start` pre-populates the option map
with the five fixed quick-start options keyed "1".."5", so each of the
numeric inputs "1".."5" already resolves to its quick-start text on the
first user turn, before any render call, and the resolved text is what a
graph run receives as the Human utterance. -/
theorem C10_quick_start_prepopulated :
    quickStartOptions.map Prod.fst = ["1", "2", "3", "4", "5"] ∧
    resolveOption quickStartOptions "1" = "List all files in current directory" ∧
    resolveOption quickStartOptions "2" = "Show available tools" ∧
    resolveOption quickStartOptions "3" = "Run the tests" ∧
    resolveOption quickStartOptions "4" = "Read the README.md file" ∧
    resolveOption quickStartOptions "5" = "Search for code in the project" ∧
    (sessionStep quietBackend [] 25 "/cwd" ⟨[], quickStartOptions⟩
        (PromptResult.line "3")).2.2 = TurnAction.graphRun "Run the tests" :=
  ⟨rfl, rfl, rfl, rfl, rfl, rfl, rfl⟩

/-- C8: when a graph run raises (for instance a model-backend error), the
session loop's `except Exception` arm catches it, reports it, and the loop
continues to the next prompt — the iteration yields `continueLoop`, never a
crash or an exit, for every possible run error. -/
theorem C8_session_loop_survives :
    ∀ (backend : Backend) (tools : List ToolDef) (limit : Nat) (cwd : String)
      (st : SessionSt) (s : String) (e : RunError),
      (s.data.isEmpty || (pyStrip s).data.isEmpty) = false →
      exitCommands.contains (pyLower s) = false →
      (pyLower s == "help") = false →
      (pyLower s == "tools") = false →
      (containsSub (pyLower (resolveOption st.last_options s)) "push" &&
        containsSub (pyLower (resolveOption st.last_options s)) "folder") = false →
      runFrom backend tools limit Node.model_response
        (st.conversation ++ [Msg.human (resolveOption st.last_options s)])
        st.last_options = Except.error e →
      sessionStep backend tools limit cwd st (PromptResult.line s) =
        (LoopOutcome.continueLoop (some e), st,
         TurnAction.graphRun (resolveOption st.last_options s)) := by
  intro backend tools limit cwd st s e h1 h2 h3 h4 h5 h6
  simp only [sessionStep, h1, h2, h3, h4, h5, h6, Bool.false_eq_true, if_false]

/-- C8 witness: a backend that raises "rate limited" on the utterance
"hello" is caught and reported, and the loop continues with the session
state intact. -/
theorem C8_witness :
    sessionStep failBackend [] 5 "/cwd" ⟨[], []⟩ (PromptResult.line "hello") =
      (LoopOutcome.continueLoop (some (RunError.backendError "rate limited")),
       ⟨[], []⟩, TurnAction.graphRun "hello") :=
  C8_session_loop_survives failBackend [] 5 "/cwd" ⟨[], []⟩ "hello"
    (RunError.backendError "rate limited") rfl rfl rfl rfl rfl rfl

/-- C9: an utterance that, after numeric-option resolution, contains both
"push" and "folder" (and is not empty nor an exit/help/tools command)
bypasses the graph: the iteration invokes `push_folder` directly with the
hard-coded owner "Abhitheshek" and repo "terminalcodeAssistant", appends no
Human message (the session state is returned untouched), and no graph run
occurs. -/
theorem C9_push_folder_bypass :
    ∀ (backend : Backend) (tools : List ToolDef) (limit : Nat) (cwd : String)
      (st : SessionSt) (s : String),
      (s.data.isEmpty || (pyStrip s).data.isEmpty) = false →
      exitCommands.contains (pyLower s) = false →
      (pyLower s == "help") = false →
      (pyLower s == "tools") = false →
      containsSub (pyLower (resolveOption st.last_options s)) "push" = true →
      containsSub (pyLower (resolveOption st.last_options s)) "folder" = true →
      sessionStep backend tools limit cwd st (PromptResult.line s) =
        (LoopOutcome.continueLoop none, st,
         TurnAction.directPush "Abhitheshek" "terminalcodeAssistant"
           (if containsSub (pyLower (resolveOption st.last_options s)) "codeassistent"
            then cwd ++ "/" ++ "codeAssistent" else cwd)
           "main" "Upload codeAssistent folder") := by
  intro backend tools limit cwd st s h1 h2 h3 h4 h5 h6
  simp only [sessionStep, h1, h2, h3, h4, h5, h6, Bool.false_eq_true, if_false,
    Bool.and_self, if_true]
  by_cases hc : containsSub (pyLower (resolveOption st.last_options s)) "codeassistent" <;>
    simp [hc]

/-- C9 witness: "push folder please" with an empty option map triggers the
direct hard-coded `push_folder` call and leaves the conversation
untouched. -/
theorem C9_witness :
    sessionStep quietBackend [] 25 "/root" ⟨[], []⟩ (PromptResult.line "push folder please") =
      (LoopOutcome.continueLoop none, ⟨[], []⟩,
       TurnAction.directPush "Abhitheshek" "terminalcodeAssistant" "/root" "main"
         "Upload codeAssistent folder") :=
  C9_push_folder_bypass quietBackend [] 25 "/root" ⟨[], []⟩ "push folder please"
    rfl rfl rfl rfl rfl rfl

/-- C2: the tool node produces exactly one ToolResult per tool invocation
request of the last Assistant message, carrying the originating request's
correlation id, in request order (the projection of the produced batch onto
ids equals the projection of the requests); and a completed run (one that
reaches END) leaves no issued request without a matching result, given it
starts from a conversation with that property. -/
theorem C2_tool_results_ordered_and_complete :
    (∀ (tools : List ToolDef) (tcs : List ToolCall),
      (tool_use tools tcs).map toolIdOf = tcs.map (fun tc => some tc.id)) ∧
    (∀ (backend : Backend) (tools : List ToolDef) (n : Nat) (messages : List Msg)
       (opts : List (String × String)) (final : List Msg) (fopts : List (String × String)),
      answeredB messages = true →
      runFrom backend tools n Node.model_response messages opts = Except.ok (final, fopts) →
      answeredB final = true) := by
  constructor
  · intro tools tcs
    induction tcs with
    | nil => rfl
    | cons tc rest ih =>
      simp only [tool_use, List.map_cons, toolIdOf_runToolCall] at ih ⊢
      rw [ih]
  · intro backend tools n messages opts final fopts hans hrun
    rw [answeredB_eq_true_iff] at hans ⊢
    exact runFrom_answered backend tools n Node.model_response messages opts final fopts
      (fun _ => hans) (fun hh => nomatch hh) hrun

/-- C2 witness: a run in which the model issues one `echo` tool call and
then finishes produces a conversation whose single issued id `call1` is
matched by a ToolResult, so the completed run left nothing unanswered. -/
theorem C2_witness :
    answeredB [Msg.human "hi", Msg.ai "" [⟨"echo", "x", "call1"⟩],
      Msg.tool "echo:x" "call1", Msg.ai "done" []] = true :=
  C2_tool_results_ordered_and_complete.2 wBackend wTools 6 [Msg.human "hi"] [] _ [] rfl rfl

/-- C6: on entry to `model_response` the message list handed to the model
gets the current System instruction as first message — prepended when the
(System-free, as every reachable conversation is) history does not start
with one, replaced in place when a leading System message is present — the
count of System messages in the resulting list is exactly one, and graph
runs keep checkpointed conversations System-free, so the bound holds on
every entry. -/
theorem C6_single_system_message :
    (∀ messages : List Msg, noSystemB messages = true → messages ≠ [] →
      buildModelInput messages = systemMessage :: messages ∧
      countSystem (buildModelInput messages) = 1) ∧
    (∀ (c : String) (rest : List Msg), rest ≠ [] →
      buildModelInput (Msg.system c :: rest) = systemMessage :: rest) ∧
    (∀ (backend : Backend) (tools : List ToolDef) (n : Nat) (messages : List Msg)
       (opts : List (String × String)) (final : List Msg) (fopts : List (String × String)),
      noSystemB messages = true →
      runFrom backend tools n Node.model_response messages opts = Except.ok (final, fopts) →
      noSystemB final = true) := by
  refine ⟨?_, ?_, ?_⟩
  · intro messages hns hne
    have h1 : buildModelInput messages = systemMessage :: messages := by
      cases messages with
      | nil => exact absurd rfl hne
      | cons m rest =>
        cases m with
        | system c => simp [noSystemB, isSystemMsg] at hns
        | human c => simp only [buildModelInput]; split <;> rfl
        | ai c tcs => simp only [buildModelInput]; split <;> rfl
        | tool c i => simp only [buildModelInput]; split <;> rfl
    refine ⟨h1, ?_⟩
    have hstep : countSystem (systemMessage :: messages) = countSystem messages + 1 := by
      simp [countSystem, List.countP_cons, systemMessage, isSystemMsg]
    rw [h1, hstep, countSystem_eq_zero messages hns]
  · intro c rest hne
    cases rest with
    | nil => exact absurd rfl hne
    | cons r rs =>
      have hlen : ((Msg.system c :: r :: rs).length == 1) = false := by
        simp [List.length_cons]
      simp [buildModelInput, hlen]
  · intro backend tools n messages opts final fopts hns hrun
    exact runFrom_noSystem backend tools n Node.model_response messages opts final fopts
      hns hrun

/-- C6 witness: on the first turn's conversation the system prompt is
prepended and the model input then holds exactly one System message, and a
stale leading System message would be replaced in place. -/
theorem C6_witness :
    buildModelInput [Msg.human "hi"] = systemMessage :: [Msg.human "hi"] ∧
    countSystem (buildModelInput [Msg.human "hi"]) = 1 ∧
    buildModelInput [Msg.system "old", Msg.human "hi"] = systemMessage :: [Msg.human "hi"] :=
  ⟨(C6_single_system_message.1 [Msg.human "hi"] rfl (by decide)).1,
   (C6_single_system_message.1 [Msg.human "hi"] rfl (by decide)).2,
   C6_single_system_message.2.1 "old" [Msg.human "hi"] (by decide)⟩

/-- C7: with a backend that issues tool invocation requests on every model
turn, the graph run never finishes on its own and is forcibly terminated by
the runtime's recursion limit with the distinct step-limit error, whatever
the configured limit: the run evaluates to `RunError.recursionLimit`, a
value different from every model-backend error. -/
theorem C7_run_step_limit :
    (∀ (backend : Backend) (tools : List ToolDef) (limit : Nat) (node : Node)
       (messages : List Msg) (opts : List (String × String)),
      (∀ input, ∃ c tcs, backend input = Except.ok ⟨c, tcs⟩ ∧ tcs ≠ []) →
      runFrom backend tools limit node messages opts =
        Except.error RunError.recursionLimit) ∧
    (∀ m : String, RunError.recursionLimit ≠ RunError.backendError m) := by
  constructor
  · intro backend tools limit
    induction limit with
    | zero => intro node messages opts _; cases node <;> rfl
    | succ n ih =>
      intro node messages opts h
      cases node with
      | model_response =>
        obtain ⟨c, tcs, hb, hne⟩ := h (steerMessages (buildModelInput messages))
        cases tcs with
        | nil => exact absurd rfl hne
        | cons hd tl =>
          rw [runFrom]
          have hmr : model_response backend opts messages =
              Except.ok (Msg.ai c (hd :: tl),
                if c == "" then opts else (format_with_numbers opts c).2) := by
            show (match backend (steerMessages (buildModelInput messages)) with
              | Except.error e =>
                (Except.error e : Except String (Msg × List (String × String)))
              | Except.ok r =>
                Except.ok (Msg.ai r.content r.tool_calls,
                  if r.content == "" then opts
                  else (format_with_numbers opts r.content).2)) = _
            rw [hb]
          rw [hmr]
          have hck := check_tool_use_concat messages c (hd :: tl)
          simp only [List.isEmpty_cons, Bool.false_eq_true, if_false] at hck
          show (match check_tool_use (messages ++ [Msg.ai c (hd :: tl)]) with
            | Route.END => Except.ok (messages ++ [Msg.ai c (hd :: tl)],
                if c == "" then opts else (format_with_numbers opts c).2)
            | Route.tool_use => runFrom backend tools n Node.tool_use
                (messages ++ [Msg.ai c (hd :: tl)])
                (if c == "" then opts else (format_with_numbers opts c).2)) =
            Except.error RunError.recursionLimit
          rw [hck]
          exact ih .tool_use _ _ h
      | tool_use =>
        rw [runFrom]
        exact ih .model_response _ _ h
  · intro m h
    cases h

/-- C7 witness: a backend that always requests the tool call `t` drives the
run into the recursion-limit error at the runtime's default limit of 25
steps. -/
theorem C7_witness :
    runFrom loopBackend [] 25 Node.model_response [Msg.human "go"] [] =
      Except.error RunError.recursionLimit :=
  C7_run_step_limit.1 loopBackend [] 25 Node.model_response [Msg.human "go"] []
    (fun _ => ⟨"", [⟨"t", "a", "1"⟩], rfl, by decide⟩)

/-! ## Helper lemmas about the option indexer -/

theorem formatLines_snd (lines : List String) :
    ∀ n, (formatLines lines n).2 = numberFrom n (bulletContents lines) := by
  induction lines with
  | nil => intro n; rfl
  | cons l rest ih =>
    intro n
    cases h : bulletMatch l with
    | none => simp [formatLines, h, bulletContents, List.filterMap_cons, ih n]
    | some p =>
      obtain ⟨ind, cont⟩ := p
      simp [formatLines, h, bulletContents, List.filterMap_cons, numberFrom, ih (n + 1)]

theorem numberFrom_fst (l : List String) : ∀ n,
    (numberFrom n l).map Prod.fst = (List.range' n l.length).map toString := by
  induction l with
  | nil => intro n; rfl
  | cons c cs ih =>
    intro n
    simp [numberFrom, List.range'_succ, ih (n + 1)]

theorem numberFrom_snd (l : List String) : ∀ n,
    (numberFrom n l).map Prod.snd = l := by
  induction l with
  | nil => intro n; rfl
  | cons c cs ih =>
    intro n
    simp [numberFrom, ih (n + 1)]

theorem numberFrom_length (l : List String) : ∀ n,
    (numberFrom n l).length = l.length := by
  induction l with
  | nil => intro n; rfl
  | cons c cs ih =>
    intro n
    simp [numberFrom, ih (n + 1)]

theorem formatLines_length (lines : List String) :
    ∀ n, (formatLines lines n).1.length = lines.length := by
  induction lines with
  | nil => intro n; rfl
  | cons l rest ih =>
    intro n
    cases h : bulletMatch l with
    | none => simp [formatLines, h, ih n]
    | some p => simp [formatLines, h, ih (n + 1)]

theorem formatLines_getD (lines : List String) :
    ∀ n i, 1 ≤ n → i < lines.length →
      (formatLines lines n).1.getD i "" =
        match bulletMatch (lines.getD i "") with
        | none => lines.getD i ""
        | some p =>
          p.1 ++ "**" ++
            toString (n - 1 + (bulletContents (lines.take (i + 1))).length) ++
            ".** " ++ p.2 := by
  induction lines with
  | nil => intro n i _ hi; simp at hi
  | cons l rest ih =>
    intro n i hn hi
    cases i with
    | zero =>
      cases h : bulletMatch l with
      | none => simp [formatLines, h]
      | some p =>
        obtain ⟨ind, cont⟩ := p
        have hn' : n - 1 + 1 = n := by omega
        simp [formatLines, h, bulletContents, List.filterMap_cons, hn']
    | succ j =>
      have hj : j < rest.length := by simpa using hi
      cases h : bulletMatch l with
      | none =>
        have hLHS : (formatLines (l :: rest) n).1.getD (j + 1) "" =
            (formatLines rest n).1.getD j "" := by
          simp [formatLines, h]
        rw [hLHS, ih n j hn hj]
        have hbc : bulletContents ((l :: rest).take (j + 1 + 1)) =
            bulletContents (rest.take (j + 1)) := by
          simp [List.take_succ_cons, bulletContents, List.filterMap_cons, h]
        rw [show (l :: rest).getD (j + 1) "" = rest.getD j "" from rfl, hbc]
      | some p =>
        have hLHS : (formatLines (l :: rest) n).1.getD (j + 1) "" =
            (formatLines rest (n + 1)).1.getD j "" := by
          simp [formatLines, h]
        rw [hLHS, ih (n + 1) j (by omega) hj]
        have hbc : (bulletContents ((l :: rest).take (j + 1 + 1))).length =
            1 + (bulletContents (rest.take (j + 1))).length := by
          simp [List.take_succ_cons, bulletContents, List.filterMap_cons, h]
          omega
        rw [show (l :: rest).getD (j + 1) "" = rest.getD j "" from rfl, hbc]
        rw [show n + 1 - 1 + (bulletContents (rest.take (j + 1))).length =
          n - 1 + (1 + (bulletContents (rest.take (j + 1))).length) from by omega]

theorem formatLines_fst_of_no_bullet (lines : List String) :
    ∀ n, bulletContents lines = [] → (formatLines lines n).1 = lines := by
  induction lines with
  | nil => intro n _; rfl
  | cons l rest ih =>
    intro n h
    cases hb : bulletMatch l with
    | some p =>
      exfalso
      simp [bulletContents, List.filterMap_cons, hb] at h
    | none =>
      have h' : bulletContents rest = [] := by
        simpa [bulletContents, List.filterMap_cons, hb] using h
      simp [formatLines, hb, ih n h']

/-- C4: the renderer splits the text into lines; the emitted option map is
exactly the numbered pairs `{str(n): content}` of the bullet matches in
document order with n starting at 1 (keys "1".."n", values the matched
contents); the output has one line per input line, each bullet line
rewritten to `<indent>**<n>.** <content>` where n counts the matches up to
and including it, each other line passed through unchanged; the prior
option map is fully discarded (the result never depends on it); and the
numeric-range trailer is appended exactly when at least one line matched,
the no-match output being the unchanged text. -/
theorem C4_option_indexer_render (text : String) :
    ((formatLines (pySplitLines text) 1).2 =
      numberFrom 1 (bulletContents (pySplitLines text))) ∧
    (∀ l : List String,
      (numberFrom 1 l).map Prod.fst = (List.range' 1 l.length).map toString ∧
      (numberFrom 1 l).map Prod.snd = l) ∧
    ((formatLines (pySplitLines text) 1).1.length = (pySplitLines text).length) ∧
    (∀ i, i < (pySplitLines text).length →
      (formatLines (pySplitLines text) 1).1.getD i "" =
        match bulletMatch ((pySplitLines text).getD i "") with
        | none => (pySplitLines text).getD i ""
        | some p =>
          p.1 ++ "**" ++
            toString (bulletContents ((pySplitLines text).take (i + 1))).length ++
            ".** " ++ p.2) ∧
    (∀ p q, (format_with_numbers p text).2 = (format_with_numbers q text).2) ∧
    (bulletContents (pySplitLines text) = [] →
      ∀ p, (format_with_numbers p text).1 =
          String.intercalate "\n" (pySplitLines text) ∧
        (formatLines (pySplitLines text) 1).1 = pySplitLines text) ∧
    (bulletContents (pySplitLines text) ≠ [] →
      ∀ p, (format_with_numbers p text).1 =
        String.intercalate "\n" (formatLines (pySplitLines text) 1).1 ++
          "\n\n*Tip: Type a number (1-" ++
          toString (bulletContents (pySplitLines text)).length ++
          ") to select an option*") := by
  refine ⟨formatLines_snd (pySplitLines text) 1,
    fun l => ⟨numberFrom_fst l 1, numberFrom_snd l 1⟩,
    formatLines_length (pySplitLines text) 1, ?_, ?_, ?_, ?_⟩
  · intro i hi
    have h := formatLines_getD (pySplitLines text) 1 i (le_refl 1) hi
    rw [h]
    rw [show 1 - 1 + (bulletContents ((pySplitLines text).take (i + 1))).length =
      (bulletContents ((pySplitLines text).take (i + 1))).length from by omega]
  · intro p q
    rfl
  · intro hbc p
    have hopts : (formatLines (pySplitLines text) 1).2 = [] := by
      rw [formatLines_snd (pySplitLines text) 1, hbc]
      rfl
    have hfst := formatLines_fst_of_no_bullet (pySplitLines text) 1 hbc
    refine ⟨?_, hfst⟩
    simp only [format_with_numbers, hopts, hfst, List.isEmpty_nil, if_true]
  · intro hbc p
    have hopts : (formatLines (pySplitLines text) 1).2 =
        numberFrom 1 (bulletContents (pySplitLines text)) :=
      formatLines_snd (pySplitLines text) 1
    have hne : ((formatLines (pySplitLines text) 1).2.isEmpty) = false := by
      rw [hopts]
      cases hb : bulletContents (pySplitLines text) with
      | nil => exact absurd hb hbc
      | cons a l => simp [numberFrom]
    have hlen : (formatLines (pySplitLines text) 1).2.length =
        (bulletContents (pySplitLines text)).length := by
      rw [hopts, numberFrom_length]
    simp only [format_with_numbers, hne, Bool.false_eq_true, if_false, hlen]

/-- C4 witness: on a four-line text with two bullet lines the map is
rebuilt as exactly `{"1": "alpha", "2": "beta"}` regardless of the stale
prior map, line 1 is rewritten to `**1.** alpha`, and the trailer names the
range 1-2; a bullet-free text passes through unchanged. -/
theorem C4_witness :
    (format_with_numbers [("9", "stale")] "hdr\n- alpha\n* beta\nend").1 =
      "hdr\n**1.** alpha\n**2.** beta\nend\n\n*Tip: Type a number (1-2) to select an option*" ∧
    (format_with_numbers [("9", "stale")] "hdr\n- alpha\n* beta\nend").2 =
      (format_with_numbers [] "hdr\n- alpha\n* beta\nend").2 ∧
    (formatLines (pySplitLines "hdr\n- alpha\n* beta\nend") 1).1.getD 1 "" = "**1.** alpha" ∧
    (format_with_numbers [("9", "stale")] "no bullets here").1 = "no bullets here" := by
  refine ⟨?_, ?_, ?_, ?_⟩
  · have h := (C4_option_indexer_render "hdr\n- alpha\n* beta\nend").2.2.2.2.2.2
      (by decide) [("9", "stale")]
    rw [h]
    rfl
  · exact (C4_option_indexer_render "hdr\n- alpha\n* beta\nend").2.2.2.2.1 [("9", "stale")] []
  · have h := (C4_option_indexer_render "hdr\n- alpha\n* beta\nend").2.2.2.1 1 (by decide)
    rw [h]
    rfl
  · have h := ((C4_option_indexer_render "no bullets here").2.2.2.2.2.1
      (by decide) [("9", "stale")]).1
    rw [h]
    rfl

end TerminalAssistant
